import Mathlib

/-!
Verification of the interactive diagram-editing engine of the repository
(`src/app.py`, class `DiagramEditor` and its helpers).

The development is a shallow embedding: pixel and grid coordinates are pairs
of integers, Qt's `QPoint` arithmetic is ordinary integer arithmetic, and the
pointer-event handlers (`mousePressEvent`, `mouseMoveEvent`,
`mouseReleaseEvent`) together with the editor actions (`delete_element`,
`unselect`, mode toggling, placement) become pure functions
`Session → Session × Effects`, where `Effects` records the outward-visible
calls the handler makes (`element_selected` signal emissions and
`diagram.change_wires` invocations).

Values imported by `app.py` from `diagram.py` (which is not part of the
sources) — `rotate`, the facing constants, `Diagram.add_element`,
`Diagram.remove_element` and `WireNode.all_connected` — are modelled from the
specification; each such definition carries a doc comment saying so.
-/

namespace MCircuit

/-- Integer point, standing for Qt's `QPoint` (pixel points and grid points). -/
structure Pt where
  x : Int
  y : Int
deriving DecidableEq, Repr

/-- Componentwise addition, as `QPoint + QPoint`. -/
def Pt.add (a b : Pt) : Pt := ⟨a.x + b.x, a.y + b.y⟩

/-- Componentwise subtraction, as `QPoint - QPoint`. -/
def Pt.sub (a b : Pt) : Pt := ⟨a.x - b.x, a.y - b.y⟩

/-- Python 3 `round(a / b)` for integers `a` and `b > 0`: true division
followed by rounding half to even (banker's rounding). -/
def pyRoundDiv (a b : Int) : Int :=
  let q := Int.fdiv a b
  let r := a - q * b
  if 2 * r < b then q
  else if b < 2 * r then q + 1
  else if q % 2 = 0 then q else q + 1

/-- Pixel-to-grid conversion used by every pointer handler:
`QPoint(round(d.x() / gs), round(d.y() / gs))`. -/
def gridRound (d : Pt) (gs : Int) : Pt :=
  ⟨pyRoundDiv d.x gs, pyRoundDiv d.y gs⟩

/-- Modelled from the spec: `rotate` is imported from `diagram.py`, which is
not among the sources.  Per spec §4.1 the element transform rotates by
`facing * -90°`; in Qt's coordinate convention rotation by `-90°` maps
`(x, y)` to `(y, -x)`, so `rotate x y facing` applies that map `facing`
times (facing EAST = 0, NORTH = 1, WEST = 2, SOUTH = 3). -/
def rotate (x y : Int) (facing : Nat) : Int × Int :=
  match facing % 4 with
  | 0 => (x, y)
  | 1 => (y, -x)
  | 2 => (-x, -y)
  | _ => (-y, x)

/-- Local bounding rectangle of an element, in un-rotated grid units:
`element.bounding_rect = (xb, yb, w, h)`. -/
structure BRect where
  xb : Int
  yb : Int
  w : Int
  h : Int
deriving DecidableEq, Repr

/-- Placed circuit component.  `id` stands for Python object identity (the
`is` comparisons of the source); `pins` is the list of local pin positions
produced by `chain(element.all_inputs(), element.all_outputs())`. -/
structure Element where
  id : Nat
  position : Pt
  facing : Nat
  bounding_rect : BRect
  pins : List Pt
deriving DecidableEq, Repr

/-- Pin-proximity test of `element_at_position`: the source computes
`rx, ry = rotate(x, y, facing)` from the element's *position* and then
`pt = QPoint(p[0] + rx, p[1] + ry) * gs`, and compares
`QVector2D(pt - pos).length() <= grid_size / 2`.  The length comparison
`sqrt(dx^2 + dy^2) <= gs / 2` is equivalent to `4 * (dx^2 + dy^2) <= gs^2`,
which is how the embedding states it (exact integer arithmetic). -/
def pinHit (gs : Int) (e : Element) (pos : Pt) : Bool :=
  e.pins.any fun p =>
    let r := rotate e.position.x e.position.y e.facing
    let ptx := (p.x + r.1) * gs
    let pty := (p.y + r.2) * gs
    4 * ((ptx - pos.x) * (ptx - pos.x) + (pty - pos.y) * (pty - pos.y)) ≤ gs * gs

/-- Body-containment test of `element_at_position`:
`r = QRect(xb*gs, yb*gs, w*gs, h*gs)` mapped through the transform
`translate(x*gs, y*gs); rotate(facing * -90)` with `QTransform.mapRect`
(the bounding rectangle of the four mapped corners), then `r.contains(pos)`
with Qt's integer-rect convention `left ≤ px ≤ left + width - 1`. -/
def bodyContains (gs : Int) (e : Element) (pos : Pt) : Bool :=
  let b := e.bounding_rect
  let tx := e.position.x * gs
  let ty := e.position.y * gs
  let c1 := rotate (b.xb * gs) (b.yb * gs) e.facing
  let c2 := rotate ((b.xb + b.w) * gs) (b.yb * gs) e.facing
  let c3 := rotate (b.xb * gs) ((b.yb + b.h) * gs) e.facing
  let c4 := rotate ((b.xb + b.w) * gs) ((b.yb + b.h) * gs) e.facing
  let xmin := tx + min (min c1.1 c2.1) (min c3.1 c4.1)
  let xmax := tx + max (max c1.1 c2.1) (max c3.1 c4.1)
  let ymin := ty + min (min c1.2 c2.2) (min c3.2 c4.2)
  let ymax := ty + max (max c1.2 c2.2) (max c3.2 c4.2)
  xmin ≤ pos.x ∧ pos.x ≤ xmax - 1 ∧ ymin ≤ pos.y ∧ pos.y ≤ ymax - 1

/-- Hit tester `DiagramEditor.element_at_position`, iterating the diagram's
elements in order: for each element, first every pin is tested for proximity
(returning no element at all on a hit), then the transformed body rectangle
is tested for containment (returning that element on a hit). -/
def element_at_position (gs : Int) (elements : List Element) (pos : Pt) :
    Option Element :=
  match elements with
  | [] => none
  | e :: rest =>
    if pinHit gs e pos then none
    else if bodyContains gs e pos then some e
    else element_at_position gs rest pos

/-- Wire segment as yielded by `_get_wire`: the 4-tuple
`(x1, y1, x2, y2)` of grid coordinates. -/
structure Seg where
  x1 : Int
  y1 : Int
  x2 : Int
  y2 : Int
deriving DecidableEq, Repr

/-- Interaction mode of the editor. -/
inductive Mode where
  | EDIT
  | VIEW
deriving DecidableEq, Repr

/-- Edit-mode interaction states. -/
inductive EditState where
  | NONE
  | ELEMENT_CLICK
  | EMPTY_CLICK
  | WIRE
  | DRAG
  | SELECT
  | PLACE
deriving DecidableEq, Repr

/-- View-mode interaction states (`VNONE` renders `ViewState.NONE`). -/
inductive ViewState where
  | VNONE
  | CLICK
  | MOVE
deriving DecidableEq, Repr

/-- Value of the single `_state` field of the source, which holds either an
`EditState` or a `ViewState` member depending on the current mode. -/
inductive MState where
  | edit (s : EditState)
  | view (s : ViewState)
deriving DecidableEq, Repr

/-- Wire router `DiagramEditor._get_wire`, fully evaluated.  The source is a
Python *generator* function, so calling it always returns a generator object;
iterating that generator produces the segments below.  The two `return None`
statements of the source merely end the iteration early, producing the empty
sequence — they never make the returned object itself `None`. -/
def get_wire (state : MState) (ws we : Pt) : List Seg :=
  if state ≠ MState.edit EditState.WIRE then []
  else
    let delta := we.sub ws
    if delta = ⟨0, 0⟩ then []
    else if (delta.y).natAbs < (delta.x).natAbs then
      [⟨ws.x, ws.y, we.x, ws.y⟩, ⟨we.x, ws.y, we.x, we.y⟩]
    else
      [⟨ws.x, ws.y, ws.x, we.y⟩, ⟨ws.x, we.y, we.x, we.y⟩]

/-- Grid point of the wire mesh with its 4 directional connections and the
crossing-disambiguation flag. -/
structure WireNode where
  c0 : Bool
  c1 : Bool
  c2 : Bool
  c3 : Bool
  overlap : Bool
deriving DecidableEq, Repr

/-- Modelled from the spec: `WireNode.all_connected` lives in `diagram.py`,
which is not among the sources; per spec §3 and §4.4 it holds exactly when
all 4 directional connections are set. -/
def WireNode.all_connected (n : WireNode) : Bool :=
  n.c0 && n.c1 && n.c2 && n.c3

/-- Number of directional connections that are set on a node. -/
def WireNode.numConnections (n : WireNode) : Nat :=
  (n.c0.toNat) + (n.c1.toNat) + (n.c2.toNat) + (n.c3.toNat)

/-- Diagram contents as consumed by the editor: the ordered element sequence
and the wire mesh, a mapping from grid point to `WireNode` (a Python dict,
so keys are unique; modelled as an association list). -/
structure Diagram where
  elements : List Element
  wires : List (Pt × WireNode)
deriving DecidableEq, Repr

/-- Lookup in the wire mapping, as `diagram.wires.get((p.x(), p.y()))`. -/
def wiresGet (ws : List (Pt × WireNode)) (p : Pt) : Option WireNode :=
  (ws.find? fun qn => qn.1 = p).map (·.2)

/-- Effect of the crossing-toggle action on the wire mapping: the node stored
at `p`, if present and fully connected, has its `overlap` flag flipped
(`node.overlap ^= True`); every other node is untouched. -/
def toggleOverlap (ws : List (Pt × WireNode)) (p : Pt) : List (Pt × WireNode) :=
  ws.map fun qn =>
    if qn.1 = p ∧ qn.2.all_connected then
      (qn.1, { qn.2 with overlap := !qn.2.overlap })
    else qn

/-- Modelled from the spec: `Diagram.add_element` lives in `diagram.py`,
which is not among the sources; per spec §6 `addElement(e)` appends to the
ordered element sequence. -/
def Diagram.add_element (d : Diagram) (e : Element) : Diagram :=
  { d with elements := d.elements ++ [e] }

/-- Modelled from the spec: `Diagram.remove_element` lives in `diagram.py`,
which is not among the sources; per spec §6 `removeElement(e)` removes the
element (identified by reference, modelled by `id`) from the ordered
sequence, and per spec §7 removal with nothing selected is a silent no-op,
so a reference that is absent — in particular none — leaves the sequence
unchanged. -/
def Diagram.remove_element (d : Diagram) (e : Option Nat) : Diagram :=
  { d with elements := d.elements.filter fun el => ¬ some el.id = e }

/-- Outward-visible calls a handler makes: payloads of `element_selected`
signal emissions (an element identity or none) and arguments of
`diagram.change_wires` invocations, in order. -/
structure Effects where
  emitted : List (Option Nat)
  wireCommits : List (List Seg)
deriving DecidableEq, Repr

/-- No outward-visible calls. -/
def noEffects : Effects := ⟨[], []⟩

/-- Transient interaction state of `DiagramEditor`, together with the diagram
it edits.  `selected` and the emission payloads use element identities
(`Element.id`) to model Python references; `endp` renders the source's
`_end` field (`end` is reserved).  The source initialises `_start` and
`_end` to `None`; they are read only in states that a press has set them in,
so the embedding initialises them to the origin. -/
structure Session where
  diagram : Diagram
  gs : Int
  mode : Mode
  state : MState
  cursor_pos : Pt
  selected : Option Nat
  placing : Option Element
  start : Pt
  endp : Pt
  translation : Pt
deriving DecidableEq, Repr

/-- State of a freshly constructed `DiagramEditor` over a diagram. -/
def initSession (d : Diagram) (gs : Int) : Session :=
  { diagram := d, gs := gs, mode := Mode.EDIT, state := MState.edit EditState.NONE,
    cursor_pos := ⟨0, 0⟩, selected := none, placing := none,
    start := ⟨0, 0⟩, endp := ⟨0, 0⟩, translation := ⟨0, 0⟩ }

/-- Mode toggle (`toggle_interaction_mode`): flip the mode, then reset the
state to the new mode's NONE value (cursor-shape changes are not modelled). -/
def toggle_interaction_mode (s : Session) : Session × Effects :=
  let m := if s.mode = Mode.VIEW then Mode.EDIT else Mode.VIEW
  let st := if m = Mode.EDIT then MState.edit EditState.NONE
            else MState.view ViewState.VNONE
  ({ s with mode := m, state := st }, noEffects)

/-- Cancel action (`cancel_interaction`): reset the active machine to its
NONE state. -/
def cancel_interaction (s : Session) : Session × Effects :=
  if s.mode = Mode.VIEW then
    ({ s with state := MState.view ViewState.VNONE }, noEffects)
  else
    ({ s with state := MState.edit EditState.NONE }, noEffects)

/-- Programmatic selection (`select_element`). -/
def select_element (s : Session) (e : Option Nat) : Session × Effects :=
  let curr := s.selected
  let s1 := { s with state := MState.edit EditState.SELECT, selected := e }
  if curr ≠ e then (s1, ⟨[e], []⟩) else (s1, noEffects)

/-- Deselection (`unselect`): clear the selection, reset the state to NONE,
and notify with none only when something had been selected. -/
def unselect (s : Session) : Session × Effects :=
  let curr := s.selected
  let s1 := { s with selected := none, state := MState.edit EditState.NONE }
  if curr ≠ none then (s1, ⟨[none], []⟩) else (s1, noEffects)

/-- Deletion (`delete_element`): remove the element from the diagram, then
deselect if it was the active selection in the SELECT state. -/
def delete_element (s : Session) (e : Option Nat) : Session × Effects :=
  let s1 := { s with diagram := s.diagram.remove_element e }
  if s1.state = MState.edit EditState.SELECT ∧ s1.selected = e then
    unselect s1
  else (s1, noEffects)

/-- Deletion of the current selection (`delete_selected_element`), bound to
the Delete key with no precondition of its own. -/
def delete_selected_element (s : Session) : Session × Effects :=
  delete_element s s.selected

/-- Start of placement (`start_placing`): toggle to EDIT mode if needed, then
enter PLACE with the given element owned by the session. -/
def start_placing (s : Session) (el : Element) : Session × Effects :=
  let s1 := if s.mode ≠ Mode.EDIT then (toggle_interaction_mode s).1 else s
  ({ s1 with state := MState.edit EditState.PLACE, placing := some el }, noEffects)

/-- End of placement without commit (`stop_placing`). -/
def stop_placing (s : Session) : Session × Effects :=
  ({ s with mode := Mode.EDIT, state := MState.edit EditState.NONE }, noEffects)

/-- Press handler (`mousePressEvent`).  `pos` is the pixel event position;
`d = pos - translation` is the untranslated pixel point and `p` its grid
rounding.  In VIEW mode every press (re)starts a pan anchor; in EDIT mode
presses resolve hits from NONE and SELECT, are ignored in PLACE, and reset
any other state to NONE. -/
def mousePressEvent (s : Session) (pos : Pt) : Session × Effects :=
  let d := pos.sub s.translation
  let p := gridRound d s.gs
  if s.mode = Mode.VIEW then
    ({ s with state := MState.view ViewState.CLICK, start := d, endp := d },
      noEffects)
  else
    match s.state with
    | MState.edit EditState.NONE =>
      match element_at_position s.gs s.diagram.elements d with
      | some el =>
        ({ s with state := MState.edit EditState.ELEMENT_CLICK,
                  selected := some el.id, start := p, endp := p },
          ⟨[some el.id], []⟩)
      | none =>
        ({ s with state := MState.edit EditState.EMPTY_CLICK,
                  start := p, endp := p }, noEffects)
    | MState.edit EditState.SELECT =>
      match element_at_position s.gs s.diagram.elements d with
      | none =>
        ({ s with state := MState.edit EditState.EMPTY_CLICK,
                  start := p, endp := p }, ⟨[none], []⟩)
      | some el =>
        if s.selected ≠ some el.id then
          ({ s with state := MState.edit EditState.ELEMENT_CLICK,
                    selected := some el.id, start := p, endp := p },
            ⟨[some el.id], []⟩)
        else
          ({ s with state := MState.edit EditState.ELEMENT_CLICK,
                    start := p, endp := p }, noEffects)
    | MState.edit EditState.PLACE => (s, noEffects)
    | _ => ({ s with state := MState.edit EditState.NONE }, noEffects)

/-- Cursor marker position computed by the move handler:
`QPoint(round(ep.x() / gs), round(ep.y() / gs)) * gs`. -/
def cursorPt (pos : Pt) (gs : Int) : Pt :=
  ⟨pyRoundDiv pos.x gs * gs, pyRoundDiv pos.y gs * gs⟩

/-- Move handler (`mouseMoveEvent`).  Always updates the cursor marker; in
VIEW mode CLICK becomes MOVE and the running end tracks the pointer; in EDIT
mode PLACE snaps the placing element, ELEMENT_CLICK becomes DRAG,
EMPTY_CLICK becomes WIRE, and DRAG/WIRE update only the running end. -/
def mouseMoveEvent (s : Session) (pos : Pt) : Session × Effects :=
  let d := pos.sub s.translation
  let p := gridRound d s.gs
  let s0 := { s with cursor_pos := cursorPt pos s.gs }
  if s0.mode = Mode.VIEW then
    match s0.state with
    | MState.view ViewState.CLICK =>
      ({ s0 with state := MState.view ViewState.MOVE, endp := d }, noEffects)
    | MState.view ViewState.MOVE => ({ s0 with endp := d }, noEffects)
    | _ => (s0, noEffects)
  else
    match s0.state with
    | MState.edit EditState.PLACE =>
      ({ s0 with placing := s0.placing.map fun el => { el with position := p } },
        noEffects)
    | MState.edit EditState.ELEMENT_CLICK =>
      ({ s0 with state := MState.edit EditState.DRAG, endp := p }, noEffects)
    | MState.edit EditState.DRAG => ({ s0 with endp := p }, noEffects)
    | MState.edit EditState.EMPTY_CLICK =>
      ({ s0 with state := MState.edit EditState.WIRE, endp := p }, noEffects)
    | MState.edit EditState.WIRE => ({ s0 with endp := p }, noEffects)
    | _ => (s0, noEffects)

/-- Release handler (`mouseReleaseEvent`).  In VIEW mode a release from MOVE
commits the pan into `translation` and a release from CLICK resets the state
(its probe of the simulation executor touches only the external simulation
link of spec §4.5, not the session or diagram, and is not modelled).  In
EDIT mode: PLACE commits the placing element, DRAG commits the drag delta
onto the selected element once, WIRE hands the router's yield to
`diagram.change_wires` — the source guards this call with
`if wires is not None`, but `_get_wire` is a generator function whose result
is never `None`, so the call is made unconditionally — ELEMENT_CLICK becomes
SELECT, and EMPTY_CLICK performs the crossing toggle.  A PLACE release with
no placing element and a DRAG release with no selection would fault in the
source and are unreachable; the embedding leaves the diagram unchanged
there. -/
def mouseReleaseEvent (s : Session) (pos : Pt) : Session × Effects :=
  let d := pos.sub s.translation
  let p := gridRound d s.gs
  if s.mode = Mode.VIEW then
    match s.state with
    | MState.view ViewState.MOVE =>
      ({ s with state := MState.view ViewState.VNONE,
                translation := s.translation.add (s.endp.sub s.start) },
        noEffects)
    | MState.view ViewState.CLICK =>
      ({ s with state := MState.view ViewState.VNONE }, noEffects)
    | _ => (s, noEffects)
  else
    match s.state with
    | MState.edit EditState.PLACE =>
      match s.placing with
      | some el =>
        ({ s with state := MState.edit EditState.SELECT,
                  diagram := s.diagram.add_element el, selected := some el.id },
          ⟨[some el.id], []⟩)
      | none =>
        ({ s with state := MState.edit EditState.SELECT, selected := none },
          ⟨[none], []⟩)
    | MState.edit EditState.DRAG =>
      match s.selected with
      | some eid =>
        let moved := s.diagram.elements.map fun el =>
          if el.id = eid then
            { el with position := el.position.add (s.endp.sub s.start) }
          else el
        ({ s with state := MState.edit EditState.NONE,
                  diagram := { s.diagram with elements := moved } }, noEffects)
      | none => ({ s with state := MState.edit EditState.NONE }, noEffects)
    | MState.edit EditState.WIRE =>
      ({ s with state := MState.edit EditState.NONE },
        ⟨[], [get_wire s.state s.start s.endp]⟩)
    | MState.edit EditState.ELEMENT_CLICK =>
      ({ s with state := MState.edit EditState.SELECT }, noEffects)
    | MState.edit EditState.EMPTY_CLICK =>
      ({ s with state := MState.edit EditState.NONE,
                diagram := { s.diagram with wires := toggleOverlap s.diagram.wires p } },
        noEffects)
    | _ => (s, noEffects)

/-- Events that mutate the session: the three pointer handlers, the
Delete-key action, the mode toggle and cancel actions, and the placement
entry points exposed to the palette (spec §6). -/
inductive Event where
  | press (pos : Pt)
  | move (pos : Pt)
  | release (pos : Pt)
  | deleteSel
  | toggleMode
  | cancel
  | startPlace (el : Element)
  | stopPlace
deriving DecidableEq, Repr

/-- One handler dispatch. -/
def handle (s : Session) : Event → Session × Effects
  | Event.press pos => mousePressEvent s pos
  | Event.move pos => mouseMoveEvent s pos
  | Event.release pos => mouseReleaseEvent s pos
  | Event.deleteSel => delete_selected_element s
  | Event.toggleMode => toggle_interaction_mode s
  | Event.cancel => cancel_interaction s
  | Event.startPlace el => start_placing s el
  | Event.stopPlace => stop_placing s

/-- Session reached by an event sequence. -/
def run (s : Session) (evs : List Event) : Session :=
  evs.foldl (fun t e => (handle t e).1) s

/-- Sessions reachable from a freshly constructed editor by any sequence of
events. -/
inductive Reachable : Session → Prop where
  | base (d : Diagram) (gs : Int) : Reachable (initSession d gs)
  | step {s : Session} (e : Event) : Reachable s → Reachable (handle s e).1

/-- Concrete fixture: a 4×4 east-facing element at the origin whose only pin
is far from the points probed by the examples. -/
def elemA : Element := ⟨1, ⟨0, 0⟩, 0, ⟨0, 0, 4, 4⟩, [⟨10, 10⟩]⟩

/-- Concrete fixture: a small element at grid (2, 2) with a pin at its local
origin, so its transformed pin center is the pixel point (32, 32). -/
def elemB : Element := ⟨2, ⟨2, 2⟩, 0, ⟨0, 0, 1, 1⟩, [⟨0, 0⟩]⟩

/-- Concrete fixture: a diagram holding only `elemA`. -/
def diaA : Diagram := ⟨[elemA], []⟩

/-- Concrete fixture: a session in the WIRE state whose wire gesture starts
and ends at the same grid point (the anchors still sit at the origin where
the press put them). -/
def sWire0 : Session :=
  { initSession ⟨[], []⟩ 16 with
      state := MState.edit EditState.WIRE }

/-- Concrete fixture: a SELECT-state session over `diaA` with `elemA`
selected (the session produced by pressing and releasing on `elemA`). -/
def sSel : Session :=
  { initSession diaA 16 with
      state := MState.edit EditState.SELECT,
      selected := some 1 }

/-- Concrete fixture: a 2×2 element placed at grid (2, 2), with no pins. -/
def elemC : Element := ⟨3, ⟨2, 2⟩, 0, ⟨0, 0, 2, 2⟩, []⟩

/-- Concrete fixture: a DRAG gesture on `elemC` anchored at grid (2, 2). -/
def sDragC : Session :=
  { initSession ⟨[elemC], []⟩ 16 with
      state := MState.edit EditState.DRAG,
      selected := some 3,
      start := ⟨2, 2⟩,
      endp := ⟨2, 2⟩ }

/-- Concrete fixture: a fully connected wire node. -/
def nodeFull : WireNode := ⟨true, true, true, true, false⟩

/-- Concrete fixture: a node with 3 connections. -/
def nodePartial : WireNode := ⟨true, false, true, true, false⟩

/-- Concrete fixture: an EMPTY_CLICK session whose mesh has a fully
connected node at (1, 1) and a 3-connected node at (2, 2). -/
def sEmptyClick : Session :=
  { initSession ⟨[], [(⟨1, 1⟩, nodeFull), (⟨2, 2⟩, nodePartial)]⟩ 16 with
      state := MState.edit EditState.EMPTY_CLICK }

/-- Concrete fixture: a VIEW-mode pan in progress from pixel (100, 50) to
(140, 70). -/
def sViewMove : Session :=
  { initSession ⟨[], []⟩ 16 with
      mode := Mode.VIEW,
      state := MState.view ViewState.MOVE,
      start := ⟨100, 50⟩,
      endp := ⟨140, 70⟩ }

/-- Structural invariant of reachable sessions: the states that read the
selection (SELECT via deletion, ELEMENT_CLICK via the release into SELECT)
always carry one, and the PLACE state always carries a placing element. -/
def Inv (s : Session) : Prop :=
  (s.state = MState.edit EditState.SELECT → s.selected ≠ none) ∧
  (s.state = MState.edit EditState.ELEMENT_CLICK → s.selected ≠ none) ∧
  (s.state = MState.edit EditState.PLACE → s.placing ≠ none)

/-- Componentwise characterisation of a zero difference of points. -/
theorem Pt.sub_eq_zero {a b : Pt} : b.sub a = (⟨0, 0⟩ : Pt) ↔ a = b := by
  cases a
  cases b
  simp only [Pt.sub, Pt.mk.injEq]
  omega

/-- Closed form of the router on distinct points: the state and zero-length
guards drop away and the fixed horizontal-dominant tie-break remains. -/
theorem get_wire_of_ne (a b : Pt) (hab : a ≠ b) :
    get_wire (MState.edit EditState.WIRE) a b =
      if ((b.sub a).y).natAbs < ((b.sub a).x).natAbs then
        [⟨a.x, a.y, b.x, a.y⟩, ⟨b.x, a.y, b.x, b.y⟩]
      else
        [⟨a.x, a.y, a.x, b.y⟩, ⟨a.x, b.y, b.x, b.y⟩] := by
  have hd : b.sub a ≠ (⟨0, 0⟩ : Pt) := fun h => hab (Pt.sub_eq_zero.mp h)
  simp [get_wire, hd]

/-- C1 counterexample: pixel point (32, 32) lies inside `elemA`'s body and
within `gridSize / 2 = 8` of `elemB`'s transformed pin center, yet
`element_at_position` returns `elemA`, not none — the pin-proximity check of
a later element does not take priority over an earlier element's body. -/
theorem C1_pin_priority_cex :
    pinHit 16 elemB ⟨32, 32⟩ = true ∧
    bodyContains 16 elemA ⟨32, 32⟩ = true ∧
    element_at_position 16 [elemA, elemB] ⟨32, 32⟩ = some elemA := by
  decide

/-- C1 (amended): pin proximity takes priority element by element in
iteration order, not across all elements: if the pixel point is within
`gridSize / 2` of a pin of element `e`, and no element strictly before `e`
has a near pin or a body containing the point, then `element_at_position`
returns none — so a pin beats its own element's body and every later
element, but not an earlier element's body. -/
theorem C1_pin_priority (gs : Int) (pre post : List Element) (e : Element)
    (pos : Pt)
    (hpre : ∀ a ∈ pre, pinHit gs a pos = false ∧ bodyContains gs a pos = false)
    (he : pinHit gs e pos = true) :
    element_at_position gs (pre ++ e :: post) pos = none := by
  induction pre with
  | nil => simp [element_at_position, he]
  | cons a pre ih =>
    have ha := hpre a (List.mem_cons_self a pre)
    simp only [List.cons_append, element_at_position, ha.1, ha.2,
      Bool.false_eq_true, if_false]
    exact ih fun b hb => hpre b (List.mem_cons_of_mem a hb)

/-- C1 witness: with no earlier elements, the point (32, 32) near `elemB`'s
pin makes the hit tester return none even though `elemB`'s body contains
it. -/
theorem C1_pin_priority_witness :
    element_at_position 16 [elemB] ⟨32, 32⟩ = none :=
  C1_pin_priority 16 [] [] elemB ⟨32, 32⟩ (by decide) (by decide)

/-- C2 counterexample: for the axis-aligned pair a = (0,0), b = (3,0) with
a ≠ b and a.y = b.y, the router yields two segments (the second of them
zero-length), not one. -/
theorem C2_router_count_cex :
    (⟨0, 0⟩ : Pt) ≠ ⟨3, 0⟩ ∧ (0 : Int) = 0 ∧
    get_wire (MState.edit EditState.WIRE) ⟨0, 0⟩ ⟨3, 0⟩ =
      [⟨0, 0, 3, 0⟩, ⟨3, 0, 3, 0⟩] ∧
    (get_wire (MState.edit EditState.WIRE) ⟨0, 0⟩ ⟨3, 0⟩).length ≠ 1 := by
  decide

/-- C2 (amended): the router is deterministic (a pure function of its two
grid points) and, for every a ≠ b, yields exactly 2 segments; when
a.x = b.x or a.y = b.y it still yields 2 segments, the second of which is
zero-length, rather than yielding 1. -/
theorem C2_router_count (a b : Pt) (hab : a ≠ b) :
    (get_wire (MState.edit EditState.WIRE) a b).length = 2 ∧
    (a.x = b.x ∨ a.y = b.y →
      ∃ s1 s2, get_wire (MState.edit EditState.WIRE) a b = [s1, s2] ∧
        s2.x1 = s2.x2 ∧ s2.y1 = s2.y2) := by
  have hd : b.sub a ≠ (⟨0, 0⟩ : Pt) := by
    intro h
    apply hab
    cases a
    cases b
    simp only [Pt.sub, Pt.mk.injEq] at h ⊢
    omega
  have key : get_wire (MState.edit EditState.WIRE) a b =
      if ((b.sub a).y).natAbs < ((b.sub a).x).natAbs then
        [⟨a.x, a.y, b.x, a.y⟩, ⟨b.x, a.y, b.x, b.y⟩]
      else
        [⟨a.x, a.y, a.x, b.y⟩, ⟨a.x, b.y, b.x, b.y⟩] := by
    simp [get_wire, hd]
  constructor
  · rw [key]
    split <;> rfl
  · rintro (hx | hy)
    · have hx0 : (b.sub a).x = 0 := by simp [Pt.sub, hx]
      have hcmp : ¬ ((b.sub a).y).natAbs < ((b.sub a).x).natAbs := by
        simp [hx0]
      rw [key, if_neg hcmp]
      exact ⟨_, _, rfl, hx, rfl⟩
    · have hy0 : (b.sub a).y = 0 := by simp [Pt.sub, hy]
      have hx0 : (b.sub a).x ≠ 0 := by
        intro h
        apply hd
        cases a
        cases b
        simp only [Pt.sub, Pt.mk.injEq] at h hy0 ⊢
        omega
      have hcmp : ((b.sub a).y).natAbs < ((b.sub a).x).natAbs := by
        rw [hy0]
        simpa [Int.natAbs_pos] using hx0
      rw [key, if_pos hcmp]
      exact ⟨_, _, rfl, rfl, hy⟩

/-- C2 witness: the pair (0,0), (3,1) is distinct and the router yields
exactly 2 segments for it. -/
theorem C2_router_count_witness :
    (get_wire (MState.edit EditState.WIRE) ⟨0, 0⟩ ⟨3, 1⟩).length = 2 :=
  (C2_router_count ⟨0, 0⟩ ⟨3, 1⟩ (by decide)).1

/-- C3 (code bug): on a zero-length WIRE gesture the router's generator
yields the empty segment sequence rather than none, and the release handler
still invokes `diagram.change_wires` — exactly once, with that empty
sequence — because the source's guard `if wires is not None` tests a
generator object, which is never `None`.  The claim (and spec §4.4) say the
commit operation is invoked only when the router yields a non-none path. -/
theorem C3_zero_length_wire :
    get_wire (MState.edit EditState.WIRE) ⟨0, 0⟩ ⟨0, 0⟩ = [] ∧
    sWire0.start = sWire0.endp ∧
    (mouseReleaseEvent sWire0 ⟨0, 0⟩).2.wireCommits = [[]] ∧
    (mouseReleaseEvent sWire0 ⟨0, 0⟩).1.state = MState.edit EditState.NONE := by
  decide

/-- C8: for distinct grid points the router emits horizontal-then-vertical
when |delta.x| > |delta.y| and vertical-then-horizontal otherwise, with the
exact segment endpoints of the claim; in particular
route((0,0),(3,1)) = [(0,0)-(3,0), (3,0)-(3,1)] and
route((0,0),(1,3)) = [(0,0)-(0,3), (0,3)-(1,3)]. -/
theorem C8_router_tiebreak (a b : Pt) (hab : a ≠ b) :
    ((b.x - a.x).natAbs > (b.y - a.y).natAbs →
      get_wire (MState.edit EditState.WIRE) a b =
        [⟨a.x, a.y, b.x, a.y⟩, ⟨b.x, a.y, b.x, b.y⟩]) ∧
    (¬ (b.x - a.x).natAbs > (b.y - a.y).natAbs →
      get_wire (MState.edit EditState.WIRE) a b =
        [⟨a.x, a.y, a.x, b.y⟩, ⟨a.x, b.y, b.x, b.y⟩]) ∧
    get_wire (MState.edit EditState.WIRE) ⟨0, 0⟩ ⟨3, 1⟩ =
      [⟨0, 0, 3, 0⟩, ⟨3, 0, 3, 1⟩] ∧
    get_wire (MState.edit EditState.WIRE) ⟨0, 0⟩ ⟨1, 3⟩ =
      [⟨0, 0, 0, 3⟩, ⟨0, 3, 1, 3⟩] := by
  refine ⟨?_, ?_, by decide, by decide⟩
  · intro hcmp
    rw [get_wire_of_ne a b hab, if_pos (by simpa [Pt.sub] using hcmp)]
  · intro hcmp
    rw [get_wire_of_ne a b hab, if_neg (by simpa [Pt.sub] using hcmp)]

/-- C8 witness: at a = (0,0), b = (3,1) the horizontal-dominant branch
applies and produces the claimed segments. -/
theorem C8_router_tiebreak_witness :
    get_wire (MState.edit EditState.WIRE) ⟨0, 0⟩ ⟨3, 1⟩ =
      [⟨0, 0, 3, 0⟩, ⟨3, 0, 3, 1⟩] :=
  (C8_router_tiebreak ⟨0, 0⟩ ⟨3, 1⟩ (by decide)).1 (by decide)

/-- C5 counterexample: press on `elemA`, drag it (zero net delta) and
release — the session is back in state NONE with `elemA` still selected —
then press on `elemA` again: the handler emits a selection-changed
notification for the element that is already the selected element, a
re-emission with no change of selection. -/
theorem C5_selection_dedup_cex :
    (run (initSession diaA 16)
      [Event.press ⟨16, 16⟩, Event.move ⟨17, 17⟩, Event.release ⟨17, 17⟩]).selected
      = some elemA.id ∧
    (run (initSession diaA 16)
      [Event.press ⟨16, 16⟩, Event.move ⟨17, 17⟩, Event.release ⟨17, 17⟩]).state
      = MState.edit EditState.NONE ∧
    (handle (run (initSession diaA 16)
      [Event.press ⟨16, 16⟩, Event.move ⟨17, 17⟩, Event.release ⟨17, 17⟩])
      (Event.press ⟨16, 16⟩)).2.emitted = [some elemA.id] := by
  decide

/-- C5 (amended): in the SELECT state a press on the already-selected
element emits nothing and a press on a different element emits exactly one
notification; but in the NONE state a press on a hit element always emits
one notification, even when that element is already the selected one — so
over interaction sequences a notification can repeat without an actual
change of selection. -/
theorem C5_selection_dedup (s : Session) (pos : Pt) (el : Element)
    (hm : s.mode = Mode.EDIT)
    (hhit : element_at_position s.gs s.diagram.elements (pos.sub s.translation)
      = some el) :
    (s.state = MState.edit EditState.SELECT → s.selected = some el.id →
      (mousePressEvent s pos).2.emitted = []) ∧
    (s.state = MState.edit EditState.SELECT → s.selected ≠ some el.id →
      (mousePressEvent s pos).2.emitted = [some el.id]) ∧
    (s.state = MState.edit EditState.NONE →
      (mousePressEvent s pos).2.emitted = [some el.id]) := by
  refine ⟨fun hs hsel => ?_, fun hs hsel => ?_, fun hs => ?_⟩
  · simp [mousePressEvent, hm, hs, hhit, hsel, noEffects]
  · simp [mousePressEvent, hm, hs, hhit, hsel]
  · simp [mousePressEvent, hm, hs, hhit]

/-- C5 witness: in the SELECT-state fixture with `elemA` already selected, a
press on `elemA` emits nothing. -/
theorem C5_selection_dedup_witness :
    (mousePressEvent sSel ⟨16, 16⟩).2.emitted = [] :=
  (C5_selection_dedup sSel ⟨16, 16⟩ elemA (by decide) (by decide)).1
    (by decide) (by decide)

/-- C6 counterexample: press and release on `elemA` (putting the session in
SELECT with `elemA` selected), then press on an empty point: the state
becomes EMPTY_CLICK and none is emitted, but the session's selected element
is still `elemA`, not none. -/
theorem C6_empty_press_cex :
    (run (initSession diaA 16)
      [Event.press ⟨16, 16⟩, Event.release ⟨16, 16⟩]).state
      = MState.edit EditState.SELECT ∧
    (run (initSession diaA 16)
      [Event.press ⟨16, 16⟩, Event.release ⟨16, 16⟩, Event.press ⟨200, 200⟩]).state
      = MState.edit EditState.EMPTY_CLICK ∧
    (handle (run (initSession diaA 16)
      [Event.press ⟨16, 16⟩, Event.release ⟨16, 16⟩])
      (Event.press ⟨200, 200⟩)).2.emitted = [none] ∧
    (run (initSession diaA 16)
      [Event.press ⟨16, 16⟩, Event.release ⟨16, 16⟩, Event.press ⟨200, 200⟩]).selected
      = some elemA.id := by
  decide

/-- C6 (amended): in EDIT mode with edit_state = SELECT, a press on an empty
grid point transitions to EMPTY_CLICK, sets both anchors to the pressed grid
point, and emits the selection-changed notification with none — but the
session's selected_element field is left unchanged, not cleared. -/
theorem C6_empty_press (s : Session) (pos : Pt)
    (hm : s.mode = Mode.EDIT) (hs : s.state = MState.edit EditState.SELECT)
    (hhit : element_at_position s.gs s.diagram.elements (pos.sub s.translation)
      = none) :
    mousePressEvent s pos =
      ({ s with state := MState.edit EditState.EMPTY_CLICK,
                start := gridRound (pos.sub s.translation) s.gs,
                endp := gridRound (pos.sub s.translation) s.gs },
        ⟨[none], []⟩) := by
  simp [mousePressEvent, hm, hs, hhit]

/-- C6 witness: in the SELECT fixture a press at the empty pixel point
(200, 200) lands in EMPTY_CLICK with the anchors at grid (12, 12), emits
none, and (per the record equality) leaves `selected` untouched. -/
theorem C6_empty_press_witness :
    mousePressEvent sSel ⟨200, 200⟩ =
      ({ sSel with state := MState.edit EditState.EMPTY_CLICK,
                   start := gridRound (Pt.sub ⟨200, 200⟩ sSel.translation) sSel.gs,
                   endp := gridRound (Pt.sub ⟨200, 200⟩ sSel.translation) sSel.gs },
        ⟨[none], []⟩) :=
  C6_empty_press sSel ⟨200, 200⟩ (by decide) (by decide) (by decide)

/-- Full connectivity of a node is the same as having all 4 of its
directional connections set. -/
theorem all_connected_iff (n : WireNode) :
    n.all_connected = true ↔ n.numConnections = 4 := by
  obtain ⟨a, b, c, d, o⟩ := n
  cases a <;> cases b <;> cases c <;> cases d <;>
    simp [WireNode.all_connected, WireNode.numConnections]

/-- Lookup on a nonempty wire mapping. -/
theorem wiresGet_cons (k : Pt) (n : WireNode) (t : List (Pt × WireNode))
    (q : Pt) :
    wiresGet ((k, n) :: t) q = if k = q then some n else wiresGet t q := by
  by_cases h : k = q <;> simp [wiresGet, List.find?_cons, h]

/-- Head unfolding of the crossing-toggle update. -/
theorem toggleOverlap_cons (k : Pt) (n : WireNode) (t : List (Pt × WireNode))
    (p : Pt) :
    toggleOverlap ((k, n) :: t) p =
      (if k = p ∧ n.all_connected then (k, { n with overlap := !n.overlap })
       else (k, n)) :: toggleOverlap t p := by
  by_cases h : k = p ∧ n.all_connected = true <;> simp [toggleOverlap, h]

/-- Lookup after the crossing-toggle update: the node found at `q` is the
one found before, with its overlap flipped exactly when `q` is the toggled
point and the node is fully connected. -/
theorem wiresGet_toggleOverlap (ws : List (Pt × WireNode)) (p q : Pt) :
    wiresGet (toggleOverlap ws p) q =
      (wiresGet ws q).map fun n =>
        if q = p ∧ n.all_connected then { n with overlap := !n.overlap }
        else n := by
  induction ws with
  | nil => rfl
  | cons hd t ih =>
    obtain ⟨k, n⟩ := hd
    rw [toggleOverlap_cons]
    by_cases hq : k = q
    · subst hq
      by_cases hc : k = p ∧ n.all_connected = true
      · rw [if_pos hc, wiresGet_cons, wiresGet_cons]
        simp [hc.1, hc.2]
      · rw [if_neg hc, wiresGet_cons, wiresGet_cons]
        simp [hc]
    · by_cases hc : k = p ∧ n.all_connected = true
      · rw [if_pos hc, wiresGet_cons, wiresGet_cons, if_neg hq, if_neg hq, ih]
      · rw [if_neg hc, wiresGet_cons, wiresGet_cons, if_neg hq, if_neg hq, ih]

/-- With no node stored at the toggled point the crossing-toggle update
leaves the mapping unchanged. -/
theorem toggleOverlap_of_absent (ws : List (Pt × WireNode)) (p : Pt)
    (h : wiresGet ws p = none) : toggleOverlap ws p = ws := by
  induction ws with
  | nil => rfl
  | cons hd t ih =>
    obtain ⟨k, n⟩ := hd
    rw [wiresGet_cons] at h
    by_cases hk : k = p
    · rw [if_pos hk] at h
      exact absurd h (by simp)
    · rw [if_neg hk] at h
      rw [toggleOverlap_cons, if_neg (fun hc => hk hc.1), ih h]

/-- Reduction of the release handler in the EMPTY_CLICK state: the session
returns to NONE and the wire mapping undergoes the crossing toggle at the
released grid point. -/
theorem release_empty_click (s : Session) (pos : Pt)
    (hm : s.mode = Mode.EDIT) (hs : s.state = MState.edit EditState.EMPTY_CLICK) :
    mouseReleaseEvent s pos =
      ({ s with
          state := MState.edit EditState.NONE,
          diagram := { s.diagram with
            wires := toggleOverlap s.diagram.wires
              (gridRound (pos.sub s.translation) s.gs) } },
        noEffects) := by
  simp [mouseReleaseEvent, hm, hs]

/-- C7: a release in the EMPTY_CLICK state returns the session to NONE and
toggles a node's overlap flag exactly when a node is stored at the released
grid point and all 4 of its directional connections are set; a node with 3
or fewer connections is never changed, and with no node at that point the
mesh is untouched. -/
theorem C7_crossing_toggle (s : Session) (pos : Pt)
    (hm : s.mode = Mode.EDIT) (hs : s.state = MState.edit EditState.EMPTY_CLICK) :
    (mouseReleaseEvent s pos).1.state = MState.edit EditState.NONE ∧
    (∀ n, wiresGet s.diagram.wires (gridRound (pos.sub s.translation) s.gs)
        = some n → n.numConnections = 4 →
      wiresGet (mouseReleaseEvent s pos).1.diagram.wires
          (gridRound (pos.sub s.translation) s.gs)
        = some { n with overlap := !n.overlap }) ∧
    (∀ q n, wiresGet s.diagram.wires q = some n → n.numConnections ≤ 3 →
      wiresGet (mouseReleaseEvent s pos).1.diagram.wires q = some n) ∧
    (wiresGet s.diagram.wires (gridRound (pos.sub s.translation) s.gs) = none →
      (mouseReleaseEvent s pos).1.diagram.wires = s.diagram.wires) := by
  rw [release_empty_click s pos hm hs]
  refine ⟨rfl, fun n hn h4 => ?_, fun q n hn h3 => ?_, fun habs => ?_⟩
  · rw [wiresGet_toggleOverlap, hn]
    simp [(all_connected_iff n).mpr h4]
  · rw [wiresGet_toggleOverlap, hn]
    have hna : ¬ n.all_connected = true := fun hc => by
      rw [(all_connected_iff n).mp hc] at h3
      omega
    simp [hna]
  · exact toggleOverlap_of_absent _ _ habs

/-- C7 witness: in the EMPTY_CLICK fixture a release at pixel (16, 16)
(grid point (1, 1)) flips the overlap of the fully connected node stored
there and leaves the 3-connected node at (2, 2) unchanged. -/
theorem C7_crossing_toggle_witness :
    wiresGet (mouseReleaseEvent sEmptyClick ⟨16, 16⟩).1.diagram.wires ⟨1, 1⟩
        = some { nodeFull with overlap := !nodeFull.overlap } ∧
    wiresGet (mouseReleaseEvent sEmptyClick ⟨16, 16⟩).1.diagram.wires ⟨2, 2⟩
        = some nodePartial :=
  ⟨by
    have h := (C7_crossing_toggle sEmptyClick ⟨16, 16⟩ (by decide)
      (by decide)).2.1 nodeFull (by decide) (by decide)
    simpa using h,
   by
    have h := (C7_crossing_toggle sEmptyClick ⟨16, 16⟩ (by decide)
      (by decide)).2.2.1 ⟨2, 2⟩ nodePartial (by decide) (by decide)
    simpa using h⟩

/-- C10: in VIEW mode a press from any view state (NONE, CLICK or MOVE)
moves the session to CLICK and resets both anchors to the pixel point minus
the current translation, leaving everything else — in particular the
accumulated translation — unchanged; moreover no press or move event ever
changes the translation, and a release changes it exactly when it arrives
in VIEW mode in the MOVE state, adding the running (end - start) offset.
A press during a pan therefore abandons the pan wholesale. -/
theorem C10_view_press_reset (s : Session) (pos : Pt) (hm : s.mode = Mode.VIEW) :
    mousePressEvent s pos =
      ({ s with
          state := MState.view ViewState.CLICK,
          start := pos.sub s.translation,
          endp := pos.sub s.translation }, noEffects) ∧
    (∀ (t : Session) (q : Pt),
      (mousePressEvent t q).1.translation = t.translation) ∧
    (∀ (t : Session) (q : Pt),
      (mouseMoveEvent t q).1.translation = t.translation) ∧
    (∀ (t : Session) (q : Pt),
      (mouseReleaseEvent t q).1.translation =
        if t.mode = Mode.VIEW ∧ t.state = MState.view ViewState.MOVE then
          t.translation.add (t.endp.sub t.start)
        else t.translation) := by
  refine ⟨by simp [mousePressEvent, hm], fun t q => ?_, fun t q => ?_,
    fun t q => ?_⟩
  · unfold mousePressEvent
    dsimp only
    repeat' split
    all_goals rfl
  · unfold mouseMoveEvent
    dsimp only
    repeat' split
    all_goals rfl
  · unfold mouseReleaseEvent
    dsimp only
    repeat' split
    all_goals simp_all

/-- Unfolding of `run` over a single leading event. -/
theorem run_cons (t : Session) (e : Event) (es : List Event) :
    run t (e :: es) = run (handle t e).1 es := rfl

/-- Unfolding of `run` over concatenation. -/
theorem run_append (t : Session) (es fs : List Event) :
    run t (es ++ fs) = run (run t es) fs := by
  simp [run, List.foldl_append]

/-- Reduction of the move handler in the DRAG state: only the cursor marker
and the running end anchor change. -/
theorem move_drag (t : Session) (q : Pt) (hm : t.mode = Mode.EDIT)
    (hs : t.state = MState.edit EditState.DRAG) :
    mouseMoveEvent t q =
      ({ t with
          cursor_pos := cursorPt q t.gs,
          endp := gridRound (q.sub t.translation) t.gs }, noEffects) := by
  simp [mouseMoveEvent, hm, hs]

/-- Folding any number of move events over a DRAG session updates only the
cursor marker and the running end anchor; the diagram — in particular the
dragged element's committed position — is untouched. -/
theorem drag_moves_fold (moves : List Pt) (t : Session)
    (hm : t.mode = Mode.EDIT) (hs : t.state = MState.edit EditState.DRAG) :
    run t (moves.map Event.move) =
      { t with
          cursor_pos := moves.foldl (fun _ q => cursorPt q t.gs) t.cursor_pos,
          endp := moves.foldl (fun _ q => gridRound (q.sub t.translation) t.gs)
            t.endp } := by
  induction moves generalizing t with
  | nil => rfl
  | cons q rest ih =>
    rw [List.map_cons, run_cons]
    have hh : (handle t (Event.move q)).1 =
        { t with
            cursor_pos := cursorPt q t.gs,
            endp := gridRound (q.sub t.translation) t.gs } := by
      rw [show handle t (Event.move q) = mouseMoveEvent t q from rfl,
        move_drag t q hm hs]
    rw [hh, ih _ (by simpa using hm) (by simpa using hs)]
    simp [List.foldl_cons]

/-- Reduction of the release handler in the DRAG state with a selection:
the drag delta (end - start) is added to the position of the selected
element, once, and the session returns to NONE. -/
theorem release_drag (t : Session) (q : Pt) (eid : Nat)
    (hm : t.mode = Mode.EDIT) (hs : t.state = MState.edit EditState.DRAG)
    (hsel : t.selected = some eid) :
    mouseReleaseEvent t q =
      ({ t with
          state := MState.edit EditState.NONE,
          diagram := { t.diagram with
            elements := t.diagram.elements.map fun el =>
              if el.id = eid then
                { el with position := el.position.add (t.endp.sub t.start) }
              else el } },
        noEffects) := by
  simp [mouseReleaseEvent, hm, hs, hsel]

/-- C9: over a DRAG gesture, any sequence of move events leaves the diagram
(and hence the dragged element's committed position) unchanged, and the
release then adds (final end - start) to the selected element's position
exactly once — the net delta, not one increment per move event — before
returning to state NONE. -/
theorem C9_drag_commit (s : Session) (moves : List Pt) (rel : Pt) (eid : Nat)
    (hm : s.mode = Mode.EDIT) (hs : s.state = MState.edit EditState.DRAG)
    (hsel : s.selected = some eid) :
    (run s (moves.map Event.move)).diagram = s.diagram ∧
    (run s (moves.map Event.move ++ [Event.release rel])).diagram.elements =
      s.diagram.elements.map (fun el =>
        if el.id = eid then
          { el with
              position :=
                Pt.add el.position
                  (Pt.sub
                    (moves.foldl
                      (fun _ q => gridRound (q.sub s.translation) s.gs) s.endp)
                    s.start) }
        else el) ∧
    (run s (moves.map Event.move ++ [Event.release rel])).state =
      MState.edit EditState.NONE := by
  have hfold := drag_moves_fold moves s hm hs
  have hrel : run s (moves.map Event.move ++ [Event.release rel]) =
      (mouseReleaseEvent (run s (moves.map Event.move)) rel).1 := by
    rw [run_append]
    rfl
  have hre := release_drag (run s (moves.map Event.move)) rel eid
    (by rw [hfold]; simpa using hm) (by rw [hfold]; simpa using hs)
    (by rw [hfold]; simpa using hsel)
  refine ⟨by rw [hfold], ?_, ?_⟩
  · rw [hrel, hre, hfold]
  · rw [hrel, hre]

/-- C9 witness: dragging `elemC` (at grid (2, 2), anchor (2, 2)) with one
move to pixel (80, 64) — grid (5, 4) — and releasing commits position
(5, 4): the delta (3, 2) is applied exactly once. -/
theorem C9_drag_commit_witness :
    (run sDragC ([(⟨80, 64⟩ : Pt)].map Event.move ++ [Event.release ⟨80, 64⟩])).diagram.elements =
      [{ elemC with position := ⟨5, 4⟩ }] :=
  ((C9_drag_commit sDragC [⟨80, 64⟩] ⟨80, 64⟩ 3 (by decide) (by decide)
    (by decide)).2.1).trans (by decide)

/-- C10 witness: a press at pixel (5, 5) during the in-progress pan fixture
restarts the anchors at (5, 5) and discards the pan without touching the
translation. -/
theorem C10_view_press_reset_witness :
    mousePressEvent sViewMove ⟨5, 5⟩ =
      ({ sViewMove with
          state := MState.view ViewState.CLICK,
          start := Pt.sub ⟨5, 5⟩ sViewMove.translation,
          endp := Pt.sub ⟨5, 5⟩ sViewMove.translation }, noEffects) :=
  (C10_view_press_reset sViewMove ⟨5, 5⟩ (by decide)).1

/-- Invariant holds in a fresh editor. -/
theorem inv_init (d : Diagram) (gs : Int) : Inv (initSession d gs) := by
  simp [Inv, initSession]

/-- Every handler preserves the invariant. -/
theorem inv_handle (s : Session) (e : Event) (h : Inv s) : Inv (handle s e).1 := by
  obtain ⟨h1, h2, h3⟩ := h
  cases e with
  | press pos =>
    unfold handle mousePressEvent
    dsimp only
    repeat' split
    all_goals simp_all [Inv]
  | move pos =>
    unfold handle mouseMoveEvent
    dsimp only
    repeat' split
    all_goals simp_all [Inv, Option.map_eq_none']
  | release pos =>
    unfold handle mouseReleaseEvent
    dsimp only
    repeat' split
    all_goals simp_all [Inv]
  | deleteSel =>
    unfold handle delete_selected_element delete_element unselect
    dsimp only
    repeat' split
    all_goals simp_all [Inv]
  | toggleMode =>
    unfold handle toggle_interaction_mode
    dsimp only
    by_cases hv : s.mode = Mode.VIEW <;> simp_all [Inv]
  | cancel =>
    unfold handle cancel_interaction
    dsimp only
    repeat' split
    all_goals simp_all [Inv]
  | startPlace el =>
    unfold handle start_placing toggle_interaction_mode
    dsimp only
    repeat' split
    all_goals simp_all [Inv]
  | stopPlace =>
    unfold handle stop_placing
    dsimp only
    simp_all [Inv]

/-- Every reachable session satisfies the invariant; in particular a
reachable session in the SELECT state always has a selected element. -/
theorem reachable_inv {s : Session} (h : Reachable s) : Inv s := by
  induction h with
  | base d gs => exact inv_init d gs
  | step e hr ih => exact inv_handle _ e ih

/-- Removing the none reference leaves a diagram unchanged. -/
theorem remove_element_none (d : Diagram) : d.remove_element none = d := by
  simp [Diagram.remove_element]

/-- C4 counterexample: press on `elemA`, drag, release — a reachable
session in state NONE with `elemA` still selected — and then the delete
action: the element is removed from the diagram even though
edit_state = SELECT does not hold, refuting "deletion is valid only when
edit_state = SELECT". -/
theorem C4_delete_guard_cex :
    (run (initSession diaA 16)
      [Event.press ⟨16, 16⟩, Event.move ⟨17, 17⟩, Event.release ⟨17, 17⟩]).state
      = MState.edit EditState.NONE ∧
    (run (initSession diaA 16)
      [Event.press ⟨16, 16⟩, Event.move ⟨17, 17⟩, Event.release ⟨17, 17⟩]).selected
      = some 1 ∧
    (run (initSession diaA 16)
      [Event.press ⟨16, 16⟩, Event.move ⟨17, 17⟩, Event.release ⟨17, 17⟩]).diagram.elements
      = [elemA] ∧
    (handle (run (initSession diaA 16)
      [Event.press ⟨16, 16⟩, Event.move ⟨17, 17⟩, Event.release ⟨17, 17⟩])
      Event.deleteSel).1.diagram.elements = [] := by
  decide

/-- C4 (amended): on every reachable session, invoking the delete action
with no selected element is a complete no-op — the diagram, the session and
the notification stream are untouched (reachability rules out the
impossible SELECT-with-no-selection combination); with a selected element
it removes that element from the diagram in *any* edit state, and clears
the selection, resets the state and notifies with none exactly when
edit_state = SELECT. -/
theorem C4_delete_no_selection (s : Session) (h : Reachable s) :
    (s.selected = none → delete_selected_element s = (s, noEffects)) ∧
    (∀ eid, s.selected = some eid →
      (delete_selected_element s).1.diagram.elements =
        s.diagram.elements.filter (fun el => ¬ el.id = eid) ∧
      (delete_selected_element s).1.selected =
        (if s.state = MState.edit EditState.SELECT then none else some eid) ∧
      (delete_selected_element s).1.state =
        (if s.state = MState.edit EditState.SELECT then
          MState.edit EditState.NONE else s.state) ∧
      (delete_selected_element s).2.emitted =
        (if s.state = MState.edit EditState.SELECT then [none] else [])) := by
  constructor
  · intro hnone
    have hst : ¬ s.state = MState.edit EditState.SELECT :=
      fun hst => (reachable_inv h).1 hst hnone
    obtain ⟨dia, gs, mode, st, cur, sel, plc, sa, en, tr⟩ := s
    simp only at hnone
    subst hnone
    simp [delete_selected_element, delete_element, remove_element_none, hst]
  · intro eid hsel
    by_cases hstate : s.state = MState.edit EditState.SELECT <;>
      simp [delete_selected_element, delete_element, unselect,
        Diagram.remove_element, hsel, hstate, noEffects]

/-- C4 witness: a freshly constructed editor is reachable and has no
selection, and the delete action on it changes nothing and emits nothing. -/
theorem C4_delete_no_selection_witness :
    delete_selected_element (initSession diaA 16) =
      (initSession diaA 16, noEffects) :=
  (C4_delete_no_selection (initSession diaA 16) (Reachable.base diaA 16)).1 rfl

end MCircuit
